import Mathlib

/-!
Verification of the selection/pruning engine and montage pipeline of the
mylyfeweb repository.  The definitions below are a shallow embedding of the
JavaScript sources:

* `src/express-backend/src/services/montageCreationService.js`
  (`processMontageCreation`: fetch, AI pruning, two-phase selection,
  per-clip normalization, assembly, status updates, cleanup);
* `src/unnamed/part_005` (`analyzeVideoWithGemini`, `createDefaultSegment`,
  `getPruningSuggestions`);
* `src/express-backend/src/services/videoProcessingService.js`
  (the stored composite `score` of an inserted clip row);
* `src/unnamed/part_009` (`selectBestSegments` scoring step).

JavaScript numbers are modelled as rationals (`ℚ`), timestamps as integers,
fallible external calls as explicit outcome parameters, and the stateful
pipeline as a pure function producing a trace of events.
-/

/-- A clip row as fetched from the `clips` table (the fields read by
`processMontageCreation` and written by `processVideoInBackground`).
`hasKey` models whether `getKeyFromUrl(clip.clip_url)` returns a non-null
S3 key. -/
structure Clip where
  id : ℕ
  start_sec : ℚ
  end_sec : ℚ
  score : ℚ
  relevance : ℚ
  quality : ℚ
  confidence : ℚ
  clip_date : ℤ
  description : String
  hasKey : Bool
deriving DecidableEq

/-- `MAX_DURATION_SEC = 90` from `montageCreationService.js`. -/
def MAX_DURATION_SEC : ℚ := 90

/-- Total duration of a clip list: `reduce((sum, clip) => sum + (clip.end_sec - clip.start_sec), 0)`. -/
def sumDur (l : List Clip) : ℚ :=
  (l.map (fun c => c.end_sec - c.start_sec)).sum

/-- Total duration of an indexed clip list. -/
def sumDurP (l : List (ℕ × Clip)) : ℚ :=
  (l.map (fun p => p.2.end_sec - p.2.start_sec)).sum

/-- The `clipsById` map built by
`initialClips.reduce((acc, clip, index) => { acc[index] = clip; ... })`,
represented as an association list in ascending key order (the order
`Object.values` enumerates integer-like keys). -/
def withIdx : ℕ → List Clip → List (ℕ × Clip)
  | _, [] => []
  | i, c :: r => (i, c) :: withIdx (i + 1) r

/-- Chronological comparison used by the final sort
`selectedClips.sort((a, b) => new Date(a.clip_date) - new Date(b.clip_date))`. -/
def chronLE (a b : Clip) : Prop := a.clip_date ≤ b.clip_date

instance : DecidableRel chronLE := fun a b => Int.decLe a.clip_date b.clip_date

instance : IsTotal Clip chronLE := ⟨fun a b => le_total a.clip_date b.clip_date⟩

instance : IsTrans Clip chronLE := ⟨fun _ _ _ h h' => le_trans h h'⟩

/-- Descending comparison on a clip score used by
`Object.values(clipsById).sort((a, b) => b.score - a.score)`; parameterized
by the scoring function so the code's ranking (the stored `score` field) can
be compared with the spec's penalized formula. -/
def scoreGE (f : Clip → ℚ) (a b : ℕ × Clip) : Prop := f b.2 ≤ f a.2

instance (f : Clip → ℚ) : DecidableRel (scoreGE f) :=
  fun a b => inferInstanceAs (Decidable (f b.2 ≤ f a.2))

instance (f : Clip → ℚ) : IsTotal (ℕ × Clip) (scoreGE f) :=
  ⟨fun a b => le_total (f b.2) (f a.2)⟩

instance (f : Clip → ℚ) : IsTrans (ℕ × Clip) (scoreGE f) :=
  ⟨fun _ _ _ h h' => le_trans h' h⟩

/-- JavaScript's stable `Array.prototype.sort` by ascending `clip_date`,
modelled by stable insertion sort. -/
def chronSort (l : List Clip) : List Clip := List.insertionSort chronLE l

/-- JavaScript's stable `Array.prototype.sort` by descending score. -/
def sortDescBy (f : Clip → ℚ) (l : List (ℕ × Clip)) : List (ℕ × Clip) :=
  List.insertionSort (scoreGE f) l

/-- Result of a pruning phase: surviving entries of `clipsById`, the running
`currentDuration`, and the removed entries in removal order. -/
structure PruneOut where
  kept : List (ℕ × Clip)
  dur : ℚ
  removed : List (ℕ × Clip)
deriving DecidableEq

/-- Phase A (step 3a of `processMontageCreation`): walk the AI-suggested
`indicesToRemove`; whenever `clipsById[index]` exists, subtract its duration,
delete it, and stop as soon as `currentDuration <= MAX_DURATION_SEC`. -/
def pruneAI : List ℕ → List (ℕ × Clip) → ℚ → PruneOut
  | [], kept, cur => ⟨kept, cur, []⟩
  | h :: rest, kept, cur =>
    match kept.find? (fun p => p.1 == h) with
    | none => pruneAI rest kept cur
    | some p =>
      if cur - (p.2.end_sec - p.2.start_sec) ≤ MAX_DURATION_SEC then
        ⟨kept.filter (fun q => q.1 != h), cur - (p.2.end_sec - p.2.start_sec), [(h, p.2)]⟩
      else
        ⟨(pruneAI rest (kept.filter (fun q => q.1 != h))
            (cur - (p.2.end_sec - p.2.start_sec))).kept,
          (pruneAI rest (kept.filter (fun q => q.1 != h))
            (cur - (p.2.end_sec - p.2.start_sec))).dur,
          (h, p.2) :: (pruneAI rest (kept.filter (fun q => q.1 != h))
            (cur - (p.2.end_sec - p.2.start_sec))).removed⟩

/-- `Object.keys(clipsById).find(key => clipsById[key].id === removedClip.id)`
followed by `delete`: remove the first entry (in ascending key order) whose
clip id matches. -/
def deleteById : List (ℕ × Clip) → ℕ → List (ℕ × Clip)
  | [], _ => []
  | p :: rest, i => if p.2.id = i then rest else p :: deleteById rest i

/-- Phase B loop (step 3b): `remainingClips.pop()` takes the last element of
the descending-sorted snapshot, i.e. the head of its reverse; each pop
subtracts the popped duration and deletes the clip from `clipsById` by id,
while `currentDuration > MAX_DURATION_SEC` and candidates remain. -/
def popLoop : List (ℕ × Clip) → List (ℕ × Clip) → ℚ → PruneOut
  | [], kept, cur => ⟨kept, cur, []⟩
  | p :: rest, kept, cur =>
    if cur ≤ MAX_DURATION_SEC then ⟨kept, cur, []⟩
    else
      ⟨(popLoop rest (deleteById kept p.2.id) (cur - (p.2.end_sec - p.2.start_sec))).kept,
        (popLoop rest (deleteById kept p.2.id) (cur - (p.2.end_sec - p.2.start_sec))).dur,
        p :: (popLoop rest (deleteById kept p.2.id)
          (cur - (p.2.end_sec - p.2.start_sec))).removed⟩

/-- The outcome of one selection run (`Selection` of the spec): the chosen
clips in emitted order, the tracked total duration, and the removal traces of
the two pruning phases. -/
structure Selection where
  selected : List Clip
  duration : ℚ
  removedA : List (ℕ × Clip)
  removedB : List (ℕ × Clip)
deriving DecidableEq

/-- Steps 2-4 of `processMontageCreation` (the selection & pruning engine),
parameterized by the scoring function used for the Phase B ranking; the code
uses the stored `score` field (see `selectMontage`). -/
def selectMontageWith (f : Clip → ℚ) (clips : List Clip) (hints : List ℕ) : Selection :=
  let indexed := withIdx 0 clips
  let total := sumDur clips
  if total ≤ MAX_DURATION_SEC then ⟨chronSort clips, total, [], []⟩
  else
    let pa := pruneAI hints indexed total
    if pa.dur ≤ MAX_DURATION_SEC then
      ⟨chronSort (pa.kept.map Prod.snd), pa.dur, pa.removed, []⟩
    else
      let asc := (sortDescBy f pa.kept).reverse
      let pb := popLoop asc pa.kept pa.dur
      ⟨chronSort (pb.kept.map Prod.snd), pb.dur, pa.removed, pb.removed⟩

/-- The selection exactly as `processMontageCreation` performs it: Phase B
ranks by the clip's stored `score` column. -/
def selectMontage (clips : List Clip) (hints : List ℕ) : Selection :=
  selectMontageWith (fun c => c.score) clips hints

/-- The stored composite score of an inserted clip row,
`videoProcessingService.js`:
`score: relevance * 0.7 + quality * 0.2 + confidence * 0.1`. -/
def clipRowScore (rel qual conf : ℚ) : ℚ :=
  rel * (7/10) + qual * (1/5) + conf * (1/10)

/-- The clip row inserted by `processVideoInBackground` (the fields the
selection engine later reads). -/
def insertedClip (startSec endSec rel qual conf : ℚ) (cid : ℕ) (date : ℤ)
    (desc : String) (hasKey : Bool) : Clip :=
  { id := cid
    start_sec := startSec
    end_sec := endSec
    score := clipRowScore rel qual conf
    relevance := rel
    quality := qual
    confidence := conf
    clip_date := date
    description := desc
    hasKey := hasKey }

/-- The ranking score asserted by the spec for pruning: the composite
weighted sum multiplied by a `durationPenalty` factor of `0.9` whenever the
clip's duration exceeds the long-clip threshold (12 seconds, the threshold
appearing in `selectBestSegments`).  Stated from the spec's words for
comparison with the code's ranking. -/
def specPruningScore (c : Clip) : ℚ :=
  (c.relevance * (7/10) + c.quality * (1/5) + c.confidence * (1/10)) *
    (if 12 < c.end_sec - c.start_sec then 9/10 else 1)

/-- A segment entering the alternate per-source selector of
`src/unnamed/part_009`; score fields are optional (`??` defaults). -/
structure Seg9 where
  relevance : Option ℚ
  quality : Option ℚ
  confidence : Option ℚ
  durationSec : ℚ
deriving DecidableEq

/-- The scoring step of `selectBestSegments` (`src/unnamed/part_009`):
`durPenalty = s.durationSec > 12 ? 0.9 : 1`;
`score = (rel*0.7 + qual*0.2 + conf*0.1) * durPenalty`. -/
def seg9Score (s : Seg9) : ℚ :=
  let rel := s.relevance.getD 0
  let qual := s.quality.getD (1/2)
  let conf := s.confidence.getD (1/2)
  (rel * (7/10) + qual * (1/5) + conf * (1/10)) *
    (if 12 < s.durationSec then 9/10 else 1)

/-- A raw segment from the scorer's JSON on the successful-parse path
(`parsed.segments[0]` in `analyzeVideoWithGemini`): `start_sec` / `end_sec`
as returned, with optional description and optional numeric score fields
(`none` models a missing or non-numeric field). -/
structure RawSeg where
  start_sec : ℚ
  end_sec : ℚ
  description : Option String
  relevance : Option ℚ
  quality : Option ℚ
  confidence : Option ℚ
deriving DecidableEq

/-- The processed segment produced by `analyzeVideoWithGemini` (uuid omitted). -/
structure Segment where
  startSec : ℚ
  endSec : ℚ
  description : String
  relevance : ℚ
  quality : ℚ
  confidence : ℚ
deriving DecidableEq

/-- The `processedSegment` construction of `analyzeVideoWithGemini`
(`src/unnamed/part_005` lines 104-124, identical in
`src/express-backend/src/services/geminiService.js` lines 85-96):
`startSec = Math.max(0, segment.start_sec)`,
`endSec = Math.max(segment.end_sec, segment.start_sec + 0.5)`,
`description || "No description"`, and per-field numeric checks replacing
missing scores with `0`, `0.5`, `0.5`. -/
def processSegment (s : RawSeg) : Segment :=
  { startSec := max 0 s.start_sec
    endSec := max s.end_sec (s.start_sec + 1/2)
    description :=
      match s.description with
      | some d => if d = "" then "No description" else d
      | none => "No description"
    relevance := s.relevance.getD 0
    quality := s.quality.getD (1/2)
    confidence := s.confidence.getD (1/2) }

/-- `createDefaultSegment` of `src/unnamed/part_005`: the fallback when
analysis fails; `safeDuration` is the provided video duration when it is a
number and `0.5` otherwise, and `endSec = Math.min(safeDuration, 3)`. -/
def createDefaultSegment (duration : Option ℚ) : Segment :=
  let safeDuration := duration.getD (1/2)
  { startSec := 0
    endSec := min safeDuration 3
    description := "Video analysis failed."
    relevance := 1/2
    quality := 1/2
    confidence := 1/2 }

/-- Outcome of one `model.generateContent` attempt inside the retry loop:
a successfully parsed and structurally valid response, an error whose
message contains `503`, or any other error (network, JSON parse, invalid
structure). -/
inductive AttemptOutcome
  | ok (seg : RawSeg)
  | err503
  | errOther
deriving DecidableEq

/-- Trace of the retry loop of `analyzeVideoWithGemini`: the parsed segment
when some attempt succeeded, the number of attempts performed, and the
backoff delay computed before each retry. -/
structure RetryOut where
  result : Option RawSeg
  attemptsUsed : ℕ
  delays : List ℚ
deriving DecidableEq

/-- The retry loop `for (attempt = 1; attempt <= maxRetries; attempt++)`
with `maxRetries = 3`: success returns the processed segment; a `503` error
with `attempt < maxRetries` waits `2 ** attempt * 5000 + Math.random() * 1000`
milliseconds (the random draw supplied by `jitter`) and retries; any other
error, or a `503` on the final attempt, breaks out.  `fuel` counts the
remaining allowed attempts (`maxRetries - attempt + 1`). -/
def runAttempts (f : ℕ → AttemptOutcome) (jitter : ℕ → ℚ) : ℕ → ℕ → RetryOut
  | _, 0 => ⟨none, 0, []⟩
  | attempt, fuel + 1 =>
    match f attempt with
    | .ok s => ⟨some s, 1, []⟩
    | .errOther => ⟨none, 1, []⟩
    | .err503 =>
      if fuel = 0 then ⟨none, 1, []⟩
      else
        let r := runAttempts f jitter (attempt + 1) fuel
        ⟨r.result, r.attemptsUsed + 1, (2 ^ attempt * 5000 + jitter attempt) :: r.delays⟩

/-- Result of `analyzeVideoWithGemini`: the returned segment plus the retry
trace. -/
structure AnalyzeOut where
  result : Segment
  attemptsUsed : ℕ
  delays : List ℚ
deriving DecidableEq

/-- `analyzeVideoWithGemini` of `src/unnamed/part_005`: if reading the video
file fails (`fileOk = false`) the outer catch returns the default segment;
otherwise the retry loop runs, a successful attempt yields the processed
segment, and exhaustion or a non-retriable error yields
`createDefaultSegment(videoDuration)`. -/
def analyzeVideoWithGemini (videoDuration : Option ℚ) (fileOk : Bool)
    (f : ℕ → AttemptOutcome) (jitter : ℕ → ℚ) : AnalyzeOut :=
  if fileOk then
    let r := runAttempts f jitter 1 3
    match r.result with
    | some s => ⟨processSegment s, r.attemptsUsed, r.delays⟩
    | none => ⟨createDefaultSegment videoDuration, r.attemptsUsed, r.delays⟩
  else ⟨createDefaultSegment videoDuration, 0, []⟩

/-- Outcome of the single `generateContent` call inside
`getPruningSuggestions`: the call (or `JSON.parse`) threw, or it produced a
parsed object whose `remove_indices` is an array (`some`) or missing /
not an array (`none`). -/
inductive ScorerOutcome
  | failure
  | response (removeIndices : Option (List ℕ))
deriving DecidableEq

/-- `getPruningSuggestions` of `src/unnamed/part_005`: empty input returns
`[]` without calling the scorer; a valid `remove_indices` array is returned
as-is; a malformed response or a thrown error degrades to `[]`. -/
def getPruningSuggestions (outcome : ScorerOutcome) (clips : List (ℕ × String)) : List ℕ :=
  if clips.isEmpty then []
  else
    match outcome with
    | .failure => []
    | .response none => []
    | .response (some l) => l

/-- The `descriptionsForPruning` list built by `processMontageCreation`:
each clip's index paired with its description. -/
def clipDescs (l : List Clip) : List (ℕ × String) :=
  (withIdx 0 l).map (fun p => (p.1, p.2.description))

/-- Job status values of the `montages` table. -/
inductive Status
  | processing
  | complete
  | failed
deriving DecidableEq

/-- Observable actions of one `processMontageCreation` run. -/
inductive Event
  | insertJob
  | fetchClips
  | scorerCall
  | setStatus (s : Status) (desc : Option String)
  | download (i : ℕ)
  | trim (i : ℕ)
  | concatCall
  | thumbnailCall
  | uploadCall
  | resetCounter
  | cleanup
deriving DecidableEq

/-- Environment of one run: success/failure of each external call the
pipeline makes.  `trimOk i` is the outcome of the `trimAndFormatClip` call
for loop index `i` (downloads are taken as successful; a download failure
behaves like a trim failure, both throwing out of the loop). -/
structure Env where
  mkdirOk : Bool
  initOk : Bool
  fetchOk : Bool
  clips : List Clip
  trimOk : ℕ → Bool
  concatOk : Bool
  thumbOk : Bool
  uploadOk : Bool
  updateOk : Bool

/-- Step 5 of `processMontageCreation`: for each selected clip, a clip whose
`clip_url` yields no S3 key is skipped with `continue`; otherwise the clip is
downloaded and trimmed, a trim failure throwing out of the whole loop.
Returns the emitted events and either the loop indices of the formatted
clips or the thrown error. -/
def normLoop (trimOk : ℕ → Bool) : List Clip → ℕ → List Event × Except String (List ℕ)
  | [], _ => ([], .ok [])
  | c :: rest, i =>
    if c.hasKey then
      if trimOk i then
        let r := normLoop trimOk rest (i + 1)
        ([Event.download i, Event.trim i] ++ r.1, r.2.map (fun l => i :: l))
      else ([Event.download i, Event.trim i], .error "trim failed")
    else normLoop trimOk rest (i + 1)

/-- The loop indices `normLoop` keeps when every trim succeeds: exactly the
clips whose media reference resolves. -/
def resolvableIdx : List Clip → ℕ → List ℕ
  | [], _ => []
  | c :: rest, i =>
    if c.hasKey then i :: resolvableIdx rest (i + 1) else resolvableIdx rest (i + 1)

/-- Result of the `try` block of `processMontageCreation`: emitted events,
normal return or thrown error, and whether the `montages` row was created
(`montageId !== null`, deciding whether the catch block can mark it
failed). -/
structure BodyOut where
  events : List Event
  outcome : Except String Unit
  jobCreated : Bool

/-- The `try` block of `processMontageCreation`, with the AI pruning hints
precomputed (see `processMontageCreation`): mkdir, insert the `processing`
row, fetch clips, handle the empty pool by marking the job failed and
returning normally, otherwise call the scorer, select, normalize each
selected clip, fail if no clip could be processed, then concatenate,
thumbnail, upload, mark complete, and reset the weekly counter. -/
def bodyCore (env : Env) (hints : List ℕ) : BodyOut :=
  if env.mkdirOk = false then ⟨[], .error "mkdir failed", false⟩
  else if env.initOk = false then
    ⟨[.insertJob], .error "Failed to initialize montage record", false⟩
  else if env.fetchOk = false then
    ⟨[.insertJob, .fetchClips], .error "Failed to fetch clips", true⟩
  else if env.clips.isEmpty then
    ⟨[.insertJob, .fetchClips, .setStatus .failed (some "No clips found")], .ok (), true⟩
  else
    let sel := (selectMontage env.clips hints).selected
    let n := normLoop env.trimOk sel 0
    let evs := [Event.insertJob, Event.fetchClips, Event.scorerCall] ++ n.1
    match n.2 with
    | .error e => ⟨evs, .error e, true⟩
    | .ok formatted =>
      if formatted.isEmpty then
        ⟨evs, .error "No clips could be processed for the final montage.", true⟩
      else if env.concatOk = false then
        ⟨evs ++ [.concatCall], .error "concat failed", true⟩
      else if env.thumbOk = false then
        ⟨evs ++ [.concatCall, .thumbnailCall], .error "thumbnail failed", true⟩
      else if env.uploadOk = false then
        ⟨evs ++ [.concatCall, .thumbnailCall, .uploadCall], .error "upload failed", true⟩
      else if env.updateOk = false then
        ⟨evs ++ [.concatCall, .thumbnailCall, .uploadCall],
          .error "Failed to update montage record", true⟩
      else
        ⟨evs ++ [.concatCall, .thumbnailCall, .uploadCall,
          .setStatus .complete none, .resetCounter], .ok (), true⟩

/-- `processMontageCreation`: the `try` block, then the catch block (which,
when the row exists, marks the job failed and swallows every error), then
the unconditional `finally` cleanup.  The function is total: no exception
reaches the caller. -/
def processMontageCreation (env : Env) (scorer : ScorerOutcome) : List Event :=
  let b := bodyCore env (getPruningSuggestions scorer (clipDescs env.clips))
  (match b.outcome with
   | .ok _ => b.events
   | .error _ => b.events ++ (if b.jobCreated then [Event.setStatus .failed none] else [])) ++
    [Event.cleanup]

/-- The status carried by the last `setStatus` event of a trace: the
persisted terminal state of the `montages` row. -/
def lastStatus (evs : List Event) : Option (Status × Option String) :=
  evs.foldl
    (fun acc e =>
      match e with
      | .setStatus s d => some (s, d)
      | _ => acc)
    none

/-- Phase A as entered by `processMontageCreation`: the AI prune run on the
freshly indexed pool with the initial total duration. -/
def phaseAOut (clips : List Clip) (hints : List ℕ) : PruneOut :=
  pruneAI hints (withIdx 0 clips) (sumDur clips)

/-- The ascending-score order Phase B pops from: the reverse of the
descending `sort((a, b) => b.score - a.score)` snapshot of the Phase A
survivors. -/
def phaseBAsc (clips : List Clip) (hints : List ℕ) : List (ℕ × Clip) :=
  (sortDescBy (fun c => c.score) (phaseAOut clips hints).kept).reverse

/-- Phase B as entered by `processMontageCreation` when still over budget. -/
def phaseBOut (clips : List Clip) (hints : List ℕ) : PruneOut :=
  popLoop (phaseBAsc clips hints) (phaseAOut clips hints).kept (phaseAOut clips hints).dur

/-- The two-phase pruning contract of the spec, expressed over the removal
traces: Phase A removes only hinted indices in hint order and only from
over-budget states; Phase B runs only if still over budget, pops a prefix of
the ascending-by-score arrangement of the survivors (each removal from an
over-budget state), and stops at the budget or when no candidate remains. -/
def TwoPhaseSpec (clips : List Clip) (hints : List ℕ) : Prop :=
  ((phaseAOut clips hints).removed.map Prod.fst).Sublist hints
  ∧ (∀ j, j < (phaseAOut clips hints).removed.length →
      MAX_DURATION_SEC < sumDur clips - sumDurP ((phaseAOut clips hints).removed.take j))
  ∧ (selectMontage clips hints).removedA = (phaseAOut clips hints).removed
  ∧ ((phaseAOut clips hints).dur ≤ MAX_DURATION_SEC →
      (selectMontage clips hints).removedB = [])
  ∧ (MAX_DURATION_SEC < (phaseAOut clips hints).dur →
      List.Pairwise (fun a b : ℕ × Clip => a.2.score ≤ b.2.score) (phaseBAsc clips hints)
      ∧ (selectMontage clips hints).removedB = (phaseBOut clips hints).removed
      ∧ (phaseBOut clips hints).removed
          = (phaseBAsc clips hints).take (phaseBOut clips hints).removed.length
      ∧ (∀ j, j < (phaseBOut clips hints).removed.length →
          MAX_DURATION_SEC < (phaseAOut clips hints).dur
            - sumDurP ((phaseBOut clips hints).removed.take j))
      ∧ ((phaseBOut clips hints).dur ≤ MAX_DURATION_SEC
          ∨ (phaseBOut clips hints).removed = phaseBAsc clips hints))

/-- A single 100-second clip (over the 90-second budget). -/
def bigClip : Clip := ⟨1, 0, 100, 1, 1, 1, 1, 0, "long clip", true⟩

/-- A 50-second clip with all scores 1 (stored score `0.7+0.2+0.1 = 1`). -/
def clipA : Clip := ⟨1, 0, 50, 1, 1, 1, 1, 0, "a", true⟩

/-- A 10-second clip with stored score `0.94 = 0.7*1 + 0.2*0.8 + 0.1*0.8`. -/
def clipB : Clip := ⟨2, 0, 10, 47/50, 1, 4/5, 4/5, 1, "b", true⟩

/-- A 45-second clip with all scores 1. -/
def clipC : Clip := ⟨3, 0, 45, 1, 1, 1, 1, 2, "c", true⟩

/-- A 5-second clip with stored score `0.94`, consistent with the composite
formula and below the 12-second threshold. -/
def clipD : Clip := ⟨4, 0, 5, 47/50, 1, 4/5, 4/5, 0, "d", true⟩

/-- Five 10-second clips (total 50s, under budget). -/
def poolC2 : List Clip :=
  [⟨1, 0, 10, 5, 1, 1, 1, 1, "n1", true⟩,
   ⟨2, 0, 10, 4, 1, 1, 1, 2, "n2", true⟩,
   ⟨3, 0, 10, 3, 1, 1, 1, 3, "n3", true⟩,
   ⟨4, 0, 10, 2, 1, 1, 1, 4, "n4", true⟩,
   ⟨5, 0, 10, 1, 1, 1, 1, 5, "n5", true⟩]

/-- An environment whose transcoder fails on the third normalization
(`i = 2`) and succeeds everywhere else. -/
def envC2 : Env :=
  ⟨true, true, true, poolC2, fun i => !(i == 2), true, true, true, true⟩

/-- The spec's end-to-end scenario pool: durations `[40, 30, 10, 25, 15]`
(total 120s) with the two lowest scores on the 25s and 15s clips. -/
def poolC4 : List Clip :=
  [⟨1, 0, 40, 5, 1, 1, 1, 0, "m1", true⟩,
   ⟨2, 0, 30, 4, 1, 1, 1, 1, "m2", true⟩,
   ⟨3, 0, 10, 3, 1, 1, 1, 2, "m3", true⟩,
   ⟨4, 0, 25, 1, 1, 1, 1, 3, "m4", true⟩,
   ⟨5, 0, 15, 2, 1, 1, 1, 4, "m5", true⟩]

/-- An environment with an empty candidate pool and every external call
succeeding. -/
def envC7 : Env :=
  ⟨true, true, true, [], fun _ => true, true, true, true, true⟩

theorem sumDurP_cons (p : ℕ × Clip) (l : List (ℕ × Clip)) :
    sumDurP (p :: l) = (p.2.end_sec - p.2.start_sec) + sumDurP l := by
  simp [sumDurP]

/-- C10 counterexample: on the successful-parse path, a scorer response with
`start_sec = -10`, `end_sec = -5` yields `startSec = 0` but `endSec = -5`,
violating both `endSec ≥ startSec + 0.5` and the persisted invariant
`endSec > startSec`. -/
theorem c10_counterexample :
    (processSegment ⟨-10, -5, none, none, none, none⟩).startSec = 0
    ∧ (processSegment ⟨-10, -5, none, none, none, none⟩).endSec = -5
    ∧ ¬ ((processSegment ⟨-10, -5, none, none, none, none⟩).startSec
        < (processSegment ⟨-10, -5, none, none, none, none⟩).endSec)
    ∧ ¬ ((processSegment ⟨-10, -5, none, none, none, none⟩).startSec + 1/2
        ≤ (processSegment ⟨-10, -5, none, none, none, none⟩).endSec) := by
  have hs : (processSegment ⟨-10, -5, none, none, none, none⟩).startSec = 0 := by
    simp only [processSegment]
    rw [max_eq_left (by norm_num)]
  have he : (processSegment ⟨-10, -5, none, none, none, none⟩).endSec = -5 := by
    simp only [processSegment]
    rw [max_eq_left (by norm_num)]
  refine ⟨hs, he, ?_, ?_⟩ <;> rw [hs, he] <;> norm_num

/-- C10 (amended): whenever the scorer's raw `start_sec` is non-negative,
the processed segment satisfies `startSec ≥ 0` and
`endSec ≥ startSec + 0.5` (hence `endSec > startSec`), and missing or
non-numeric score fields are replaced by the defaults `0`, `0.5`, `0.5`. -/
theorem processSegment_bounds (s : RawSeg) (h : 0 ≤ s.start_sec) :
    0 ≤ (processSegment s).startSec
    ∧ (processSegment s).startSec + 1/2 ≤ (processSegment s).endSec
    ∧ (processSegment s).startSec < (processSegment s).endSec
    ∧ (s.relevance = none → (processSegment s).relevance = 0)
    ∧ (s.quality = none → (processSegment s).quality = 1/2)
    ∧ (s.confidence = none → (processSegment s).confidence = 1/2) := by
  have hst : (processSegment s).startSec = s.start_sec := by
    simp [processSegment, max_eq_right h]
  have hend : s.start_sec + 1/2 ≤ (processSegment s).endSec := by
    simp only [processSegment]
    exact le_max_right _ _
  refine ⟨?_, ?_, ?_, ?_, ?_, ?_⟩
  · rw [hst]; exact h
  · rw [hst]; exact hend
  · rw [hst]; linarith
  · intro hr; simp [processSegment, hr]
  · intro hq; simp [processSegment, hq]
  · intro hc; simp [processSegment, hc]

/-- Witness for `processSegment_bounds` at the concrete raw segment
`start_sec = 1`, `end_sec = 4` with all score fields missing. -/
theorem c10_witness :
    (0 : ℚ) ≤ (⟨1, 4, none, none, none, none⟩ : RawSeg).start_sec
    ∧ (0 ≤ (processSegment ⟨1, 4, none, none, none, none⟩).startSec
      ∧ (processSegment ⟨1, 4, none, none, none, none⟩).startSec + 1/2
          ≤ (processSegment ⟨1, 4, none, none, none, none⟩).endSec
      ∧ (processSegment ⟨1, 4, none, none, none, none⟩).startSec
          < (processSegment ⟨1, 4, none, none, none, none⟩).endSec
      ∧ ((⟨1, 4, none, none, none, none⟩ : RawSeg).relevance = none →
          (processSegment ⟨1, 4, none, none, none, none⟩).relevance = 0)
      ∧ ((⟨1, 4, none, none, none, none⟩ : RawSeg).quality = none →
          (processSegment ⟨1, 4, none, none, none, none⟩).quality = 1/2)
      ∧ ((⟨1, 4, none, none, none, none⟩ : RawSeg).confidence = none →
          (processSegment ⟨1, 4, none, none, none, none⟩).confidence = 1/2)) :=
  ⟨by decide, processSegment_bounds ⟨1, 4, none, none, none, none⟩ (by decide)⟩

theorem runAttempts_succ (f : ℕ → AttemptOutcome) (jit : ℕ → ℚ) (a n : ℕ) :
    runAttempts f jit a (n + 1) =
      match f a with
      | .ok s => ⟨some s, 1, []⟩
      | .errOther => ⟨none, 1, []⟩
      | .err503 =>
        if n = 0 then ⟨none, 1, []⟩
        else
          let r := runAttempts f jit (a + 1) n
          ⟨r.result, r.attemptsUsed + 1, (2 ^ a * 5000 + jit a) :: r.delays⟩ := rfl

theorem runAttempts_attempts_le (f : ℕ → AttemptOutcome) (jit : ℕ → ℚ) :
    ∀ (fuel attempt : ℕ), (runAttempts f jit attempt fuel).attemptsUsed ≤ fuel := by
  intro fuel
  induction fuel with
  | zero => intro a; simp [runAttempts]
  | succ n ih =>
    intro a
    rw [runAttempts_succ]
    cases hf : f a with
    | ok s => simp
    | errOther => simp
    | err503 =>
      by_cases hn : n = 0
      · simp [hn]
      · simp only [if_neg hn]
        exact Nat.succ_le_succ (ih (a + 1))

/-- C6: the retry contract of `analyzeVideoWithGemini`.  Two 503 failures
followed by a success yield the real processed segment together with the two
exponential-backoff-plus-jitter delays; at most 3 attempts are ever made; a
non-503 error stops immediately with the fallback; three 503s exhaust the
retries and fall back; and the fallback's length is the lesser of the clip's
own duration and 3 seconds. -/
theorem analyze_retry_contract (d : ℚ) (jit : ℕ → ℚ) (f : ℕ → AttemptOutcome) (s : RawSeg)
    (h1 : f 1 = AttemptOutcome.err503) (h2 : f 2 = AttemptOutcome.err503)
    (h3 : f 3 = AttemptOutcome.ok s) :
    analyzeVideoWithGemini (some d) true f jit =
      ⟨processSegment s, 3, [2 ^ 1 * 5000 + jit 1, 2 ^ 2 * 5000 + jit 2]⟩
    ∧ (∀ (d' : Option ℚ) (g : ℕ → AttemptOutcome) (j : ℕ → ℚ),
        (analyzeVideoWithGemini d' true g j).attemptsUsed ≤ 3)
    ∧ (∀ (d' : Option ℚ) (g : ℕ → AttemptOutcome) (j : ℕ → ℚ),
        g 1 = AttemptOutcome.errOther →
        analyzeVideoWithGemini d' true g j = ⟨createDefaultSegment d', 1, []⟩)
    ∧ (∀ (d' : Option ℚ) (g : ℕ → AttemptOutcome) (j : ℕ → ℚ),
        g 1 = AttemptOutcome.err503 → g 2 = AttemptOutcome.err503 →
        g 3 = AttemptOutcome.err503 →
        (analyzeVideoWithGemini d' true g j).result = createDefaultSegment d')
    ∧ (∀ q : ℚ,
        (createDefaultSegment (some q)).endSec - (createDefaultSegment (some q)).startSec
          = min q 3) := by
  refine ⟨?_, ?_, ?_, ?_, ?_⟩
  · have e3 : runAttempts f jit 3 1 = ⟨some s, 1, []⟩ := by
      rw [show (1 : ℕ) = 0 + 1 from rfl, runAttempts_succ, h3]
    have e2 : runAttempts f jit 2 2 = ⟨some s, 2, [2 ^ 2 * 5000 + jit 2]⟩ := by
      rw [show (2 : ℕ) = 1 + 1 from rfl, runAttempts_succ, h2]
      simp [e3]
    have e1 : runAttempts f jit 1 3
        = ⟨some s, 3, [2 ^ 1 * 5000 + jit 1, 2 ^ 2 * 5000 + jit 2]⟩ := by
      rw [show (3 : ℕ) = 2 + 1 from rfl, runAttempts_succ, h1]
      simp [e2]
    simp [analyzeVideoWithGemini, e1]
  · intro d' g j
    have hle := runAttempts_attempts_le g j 3 1
    simp only [analyzeVideoWithGemini, if_pos rfl]
    cases hr : (runAttempts g j 1 3).result <;> simp only [hr] <;> exact hle
  · intro d' g j hg
    have e1 : runAttempts g j 1 3 = ⟨none, 1, []⟩ := by
      rw [show (3 : ℕ) = 2 + 1 from rfl, runAttempts_succ, hg]
    simp [analyzeVideoWithGemini, e1]
  · intro d' g j hg1 hg2 hg3
    have e3 : runAttempts g j 3 1 = ⟨none, 1, []⟩ := by
      rw [show (1 : ℕ) = 0 + 1 from rfl, runAttempts_succ, hg3]
      simp
    have e2 : runAttempts g j 2 2 = ⟨none, 2, [2 ^ 2 * 5000 + j 2]⟩ := by
      rw [show (2 : ℕ) = 1 + 1 from rfl, runAttempts_succ, hg2]
      simp [e3]
    have e1 : runAttempts g j 1 3 = ⟨none, 3, [2 ^ 1 * 5000 + j 1, 2 ^ 2 * 5000 + j 2]⟩ := by
      rw [show (3 : ℕ) = 2 + 1 from rfl, runAttempts_succ, hg1]
      simp [e2]
    simp [analyzeVideoWithGemini, e1]
  · intro q
    simp [createDefaultSegment]

/-- Witness for `analyze_retry_contract`: the attempt stream that returns
503 twice and then the segment `[1, 3]` with all scores present. -/
theorem c6_witness :
    (fun n => if n = 3 then AttemptOutcome.ok ⟨1, 3, some "ok", some 1, some 1, some 1⟩
      else AttemptOutcome.err503) 1 = AttemptOutcome.err503
    ∧ (fun n => if n = 3 then AttemptOutcome.ok ⟨1, 3, some "ok", some 1, some 1, some 1⟩
      else AttemptOutcome.err503) 2 = AttemptOutcome.err503
    ∧ (fun n => if n = 3 then AttemptOutcome.ok ⟨1, 3, some "ok", some 1, some 1, some 1⟩
      else AttemptOutcome.err503) 3
        = AttemptOutcome.ok ⟨1, 3, some "ok", some 1, some 1, some 1⟩
    ∧ analyzeVideoWithGemini (some 5) true
        (fun n => if n = 3 then AttemptOutcome.ok ⟨1, 3, some "ok", some 1, some 1, some 1⟩
          else AttemptOutcome.err503) (fun _ => 7) =
        ⟨processSegment ⟨1, 3, some "ok", some 1, some 1, some 1⟩, 3,
          [2 ^ 1 * 5000 + 7, 2 ^ 2 * 5000 + 7]⟩ := by
  refine ⟨rfl, rfl, rfl, ?_⟩
  exact (analyze_retry_contract 5 (fun _ => 7)
    (fun n => if n = 3 then AttemptOutcome.ok ⟨1, 3, some "ok", some 1, some 1, some 1⟩
      else AttemptOutcome.err503) ⟨1, 3, some "ok", some 1, some 1, some 1⟩ rfl rfl rfl).1

/-- C8: a thrown scorer call (`failure`) or a malformed response shape
(`response none`) makes `getPruningSuggestions` degrade to the empty hint
list, and a montage run under either outcome is identical to a run whose
scorer returned an empty (valid) list: the hint stage can neither fail nor
crash the run. -/
theorem scorer_fallback_empty_hints :
    (∀ ds, getPruningSuggestions ScorerOutcome.failure ds = [])
    ∧ (∀ ds, getPruningSuggestions (ScorerOutcome.response none) ds = [])
    ∧ (∀ env : Env, processMontageCreation env ScorerOutcome.failure
        = processMontageCreation env (ScorerOutcome.response (some [])))
    ∧ (∀ env : Env, processMontageCreation env (ScorerOutcome.response none)
        = processMontageCreation env (ScorerOutcome.response (some []))) := by
  have k1 : ∀ ds, getPruningSuggestions ScorerOutcome.failure ds = [] := by
    intro ds; unfold getPruningSuggestions; split <;> rfl
  have k2 : ∀ ds, getPruningSuggestions (ScorerOutcome.response none) ds = [] := by
    intro ds; unfold getPruningSuggestions; split <;> rfl
  have k3 : ∀ ds, getPruningSuggestions (ScorerOutcome.response (some [])) ds = [] := by
    intro ds; unfold getPruningSuggestions; split <;> rfl
  refine ⟨k1, k2, ?_, ?_⟩
  · intro env
    unfold processMontageCreation
    rw [k1, k3]
  · intro env
    unfold processMontageCreation
    rw [k2, k3]

/-- C7: a run over an empty candidate pool marks the job `failed` with the
descriptive reason `"No clips found"`, performs no Transcoder call
(no trim, no concatenation, no thumbnail), returns normally from the `try`
block (no exception), and still runs cleanup. -/
theorem empty_pool_fails (env : Env) (scorer : ScorerOutcome)
    (h1 : env.mkdirOk = true) (h2 : env.initOk = true) (h3 : env.fetchOk = true)
    (h4 : env.clips = []) :
    processMontageCreation env scorer =
      [Event.insertJob, Event.fetchClips,
        Event.setStatus Status.failed (some "No clips found"), Event.cleanup]
    ∧ lastStatus (processMontageCreation env scorer)
        = some (Status.failed, some "No clips found")
    ∧ (∀ i, Event.trim i ∉ processMontageCreation env scorer)
    ∧ Event.concatCall ∉ processMontageCreation env scorer
    ∧ Event.thumbnailCall ∉ processMontageCreation env scorer
    ∧ (bodyCore env (getPruningSuggestions scorer (clipDescs env.clips))).outcome
        = Except.ok () := by
  have hb : bodyCore env (getPruningSuggestions scorer (clipDescs env.clips)) =
      ⟨[Event.insertJob, Event.fetchClips,
        Event.setStatus Status.failed (some "No clips found")], Except.ok (), true⟩ := by
    unfold bodyCore
    rw [h1, h2, h3, h4]
    simp
  have ht : processMontageCreation env scorer =
      [Event.insertJob, Event.fetchClips,
        Event.setStatus Status.failed (some "No clips found"), Event.cleanup] := by
    unfold processMontageCreation
    rw [hb]
    rfl
  refine ⟨ht, ?_, ?_, ?_, ?_, ?_⟩
  · rw [ht]; rfl
  · intro i; rw [ht]; simp
  · rw [ht]; simp
  · rw [ht]; simp
  · rw [hb]

/-- Witness for `empty_pool_fails` at the concrete all-succeeding
environment with an empty pool. -/
theorem c7_witness :
    envC7.mkdirOk = true ∧ envC7.initOk = true ∧ envC7.fetchOk = true
    ∧ envC7.clips = []
    ∧ processMontageCreation envC7 (ScorerOutcome.response (some [])) =
        [Event.insertJob, Event.fetchClips,
          Event.setStatus Status.failed (some "No clips found"), Event.cleanup] :=
  ⟨rfl, rfl, rfl, rfl,
    (empty_pool_fails envC7 (ScorerOutcome.response (some [])) rfl rfl rfl rfl).1⟩

theorem normLoop_no_cleanup (t : ℕ → Bool) :
    ∀ (l : List Clip) (i : ℕ), Event.cleanup ∉ (normLoop t l i).1 := by
  intro l
  induction l with
  | nil => intro i; simp [normLoop]
  | cons c rest ih =>
    intro i
    simp only [normLoop]
    split
    · split
      · simp [ih (i + 1)]
      · simp
    · exact ih (i + 1)

theorem bodyCore_no_cleanup (env : Env) (hints : List ℕ) :
    Event.cleanup ∉ (bodyCore env hints).events := by
  have hn := normLoop_no_cleanup env.trimOk (selectMontage env.clips hints).selected 0
  simp only [bodyCore]
  generalize hgen : normLoop env.trimOk (selectMontage env.clips hints).selected 0 = n at hn ⊢
  clear hgen
  obtain ⟨nevs, nres⟩ := n
  simp only at hn
  by_cases b1 : env.mkdirOk = false
  · simp [b1]
  by_cases b2 : env.initOk = false
  · simp [b1, b2]
  by_cases b3 : env.fetchOk = false
  · simp [b1, b2, b3]
  by_cases b4 : env.clips.isEmpty = true
  · simp [b1, b2, b3, b4]
  cases nres with
  | error e => simp [b1, b2, b3, b4, hn]
  | ok formatted =>
    by_cases b5 : formatted.isEmpty = true
    · simp [b1, b2, b3, b4, b5, hn]
    by_cases b6 : env.concatOk = false
    · simp [b1, b2, b3, b4, b5, b6, hn]
    by_cases b7 : env.thumbOk = false
    · simp [b1, b2, b3, b4, b5, b6, b7, hn]
    by_cases b8 : env.uploadOk = false
    · simp [b1, b2, b3, b4, b5, b6, b7, b8, hn]
    by_cases b9 : env.updateOk = false
    · simp [b1, b2, b3, b4, b5, b6, b7, b8, b9, hn]
    · simp [b1, b2, b3, b4, b5, b6, b7, b8, b9, hn]

/-- C9: on every exit path of a run (any combination of adapter successes
and failures) the final cleanup step runs exactly once and is the last
action of the run; the run itself is a total function, so no thrown error
ever reaches the caller. -/
theorem cleanup_every_exit (env : Env) (scorer : ScorerOutcome) :
    List.count Event.cleanup (processMontageCreation env scorer) = 1
    ∧ (processMontageCreation env scorer).getLast? = some Event.cleanup := by
  have hnc := bodyCore_no_cleanup env (getPruningSuggestions scorer (clipDescs env.clips))
  constructor
  · unfold processMontageCreation
    have h0 : List.count Event.cleanup
        (bodyCore env (getPruningSuggestions scorer (clipDescs env.clips))).events = 0 :=
      List.count_eq_zero.mpr hnc
    cases ho : (bodyCore env (getPruningSuggestions scorer (clipDescs env.clips))).outcome with
    | ok u => simp [ho, List.count_append, h0]
    | error e =>
      by_cases hj :
        (bodyCore env (getPruningSuggestions scorer (clipDescs env.clips))).jobCreated = true
      · simp [ho, hj, List.count_append, h0]
      · simp [ho, hj, List.count_append, h0]
  · unfold processMontageCreation
    simp

theorem chronSort_sorted (l : List Clip) : List.Sorted chronLE (chronSort l) :=
  List.sorted_insertionSort chronLE l

theorem chronSort_perm (l : List Clip) : List.Perm (chronSort l) l :=
  List.perm_insertionSort chronLE l

theorem sortDescBy_sorted (f : Clip → ℚ) (l : List (ℕ × Clip)) :
    List.Sorted (scoreGE f) (sortDescBy f l) :=
  List.sorted_insertionSort (scoreGE f) l

theorem sortDescBy_reverse_pairwise (f : Clip → ℚ) (l : List (ℕ × Clip)) :
    List.Pairwise (fun a b : ℕ × Clip => f a.2 ≤ f b.2) (sortDescBy f l).reverse := by
  rw [List.pairwise_reverse]
  exact sortDescBy_sorted f l

theorem selectMontageWith_selected_sorted (f : Clip → ℚ) (cs : List Clip) (hs : List ℕ) :
    List.Sorted chronLE (selectMontageWith f cs hs).selected := by
  simp only [selectMontageWith]
  split_ifs <;> exact chronSort_sorted _

theorem selectMontageWith_le (f : Clip → ℚ) (clips : List Clip) (hints : List ℕ)
    (h : sumDur clips ≤ MAX_DURATION_SEC) :
    selectMontageWith f clips hints = ⟨chronSort clips, sumDur clips, [], []⟩ := by
  simp only [selectMontageWith]
  rw [if_pos h]

theorem selectMontageWith_mid (f : Clip → ℚ) (clips : List Clip) (hints : List ℕ)
    (h : MAX_DURATION_SEC < sumDur clips)
    (h2 : (phaseAOut clips hints).dur ≤ MAX_DURATION_SEC) :
    selectMontageWith f clips hints =
      ⟨chronSort ((phaseAOut clips hints).kept.map Prod.snd), (phaseAOut clips hints).dur,
        (phaseAOut clips hints).removed, []⟩ := by
  simp only [selectMontageWith]
  rw [if_neg (not_le.mpr h),
    if_pos (show (pruneAI hints (withIdx 0 clips) (sumDur clips)).dur ≤ MAX_DURATION_SEC from h2)]
  rfl

theorem selectMontageWith_deep (f : Clip → ℚ) (clips : List Clip) (hints : List ℕ)
    (h : MAX_DURATION_SEC < sumDur clips)
    (h2 : MAX_DURATION_SEC < (phaseAOut clips hints).dur) :
    selectMontageWith f clips hints =
      ⟨chronSort ((popLoop ((sortDescBy f (phaseAOut clips hints).kept).reverse)
            (phaseAOut clips hints).kept (phaseAOut clips hints).dur).kept.map Prod.snd),
        (popLoop ((sortDescBy f (phaseAOut clips hints).kept).reverse)
            (phaseAOut clips hints).kept (phaseAOut clips hints).dur).dur,
        (phaseAOut clips hints).removed,
        (popLoop ((sortDescBy f (phaseAOut clips hints).kept).reverse)
            (phaseAOut clips hints).kept (phaseAOut clips hints).dur).removed⟩ := by
  simp only [selectMontageWith]
  rw [if_neg (not_le.mpr h),
    if_neg (not_le.mpr
      (show MAX_DURATION_SEC < (pruneAI hints (withIdx 0 clips) (sumDur clips)).dur from h2))]
  rfl

theorem pruneAI_removed_sublist (hints : List ℕ) :
    ∀ (kept : List (ℕ × Clip)) (cur : ℚ),
      ((pruneAI hints kept cur).removed.map Prod.fst).Sublist hints := by
  induction hints with
  | nil => intro kept cur; simp [pruneAI]
  | cons h rest ih =>
    intro kept cur
    rcases hf : kept.find? (fun p => p.1 == h) with _ | p
    · simp only [pruneAI, hf]
      exact (ih kept cur).cons h
    · by_cases hcond : cur - (p.2.end_sec - p.2.start_sec) ≤ MAX_DURATION_SEC
      · simp only [pruneAI, hf, if_pos hcond]
        simp
      · simp only [pruneAI, hf, if_neg hcond]
        simpa using List.Sublist.cons₂ h (ih _ _)

theorem pruneAI_removed_over (hints : List ℕ) :
    ∀ (kept : List (ℕ × Clip)) (cur : ℚ), MAX_DURATION_SEC < cur →
      ∀ j, j < (pruneAI hints kept cur).removed.length →
        MAX_DURATION_SEC < cur - sumDurP ((pruneAI hints kept cur).removed.take j) := by
  induction hints with
  | nil => intro kept cur hcur j hj; simp [pruneAI] at hj
  | cons h rest ih =>
    intro kept cur hcur j hj
    rcases hf : kept.find? (fun p => p.1 == h) with _ | p
    · simp only [pruneAI, hf] at hj ⊢
      exact ih kept cur hcur j hj
    · by_cases hcond : cur - (p.2.end_sec - p.2.start_sec) ≤ MAX_DURATION_SEC
      · simp only [pruneAI, hf, if_pos hcond] at hj ⊢
        have hj0 : j = 0 := by simpa using hj
        subst hj0
        simpa [sumDurP] using hcur
      · simp only [pruneAI, hf, if_neg hcond] at hj ⊢
        cases j with
        | zero => simpa [sumDurP] using hcur
        | succ jj =>
          have hjj : jj < (pruneAI rest (kept.filter (fun q => q.1 != h))
              (cur - (p.2.end_sec - p.2.start_sec))).removed.length := by
            simpa using hj
          have hover := ih (kept.filter (fun q => q.1 != h))
            (cur - (p.2.end_sec - p.2.start_sec)) (not_le.mp hcond) jj hjj
          rw [List.take_succ_cons, sumDurP_cons]
          linarith

theorem popLoop_removed_take :
    ∀ (asc kept : List (ℕ × Clip)) (cur : ℚ),
      (popLoop asc kept cur).removed = asc.take (popLoop asc kept cur).removed.length := by
  intro asc
  induction asc with
  | nil => intro kept cur; simp [popLoop]
  | cons p rest ih =>
    intro kept cur
    by_cases hc : cur ≤ MAX_DURATION_SEC
    · simp [popLoop, hc]
    · simp only [popLoop, if_neg hc, List.length_cons, List.take_succ_cons]
      rw [List.cons.injEq]
      exact ⟨rfl, ih _ _⟩

theorem popLoop_removed_over :
    ∀ (asc kept : List (ℕ × Clip)) (cur : ℚ) (j : ℕ),
      j < (popLoop asc kept cur).removed.length →
      MAX_DURATION_SEC < cur - sumDurP ((popLoop asc kept cur).removed.take j) := by
  intro asc
  induction asc with
  | nil => intro kept cur j hj; simp [popLoop] at hj
  | cons p rest ih =>
    intro kept cur j hj
    by_cases hc : cur ≤ MAX_DURATION_SEC
    · simp [popLoop, hc] at hj
    · simp only [popLoop, if_neg hc] at hj ⊢
      cases j with
      | zero => simpa [sumDurP] using not_le.mp hc
      | succ jj =>
        have hjj : jj < (popLoop rest (deleteById kept p.2.id)
            (cur - (p.2.end_sec - p.2.start_sec))).removed.length := by
          simpa using hj
        have hover := ih (deleteById kept p.2.id)
          (cur - (p.2.end_sec - p.2.start_sec)) jj hjj
        rw [List.take_succ_cons, sumDurP_cons]
        linarith

theorem popLoop_end :
    ∀ (asc kept : List (ℕ × Clip)) (cur : ℚ),
      (popLoop asc kept cur).dur ≤ MAX_DURATION_SEC
      ∨ (popLoop asc kept cur).removed = asc := by
  intro asc
  induction asc with
  | nil => intro kept cur; right; simp [popLoop]
  | cons p rest ih =>
    intro kept cur
    by_cases hc : cur ≤ MAX_DURATION_SEC
    · left; simp [popLoop, hc]
    · rcases ih (deleteById kept p.2.id) (cur - (p.2.end_sec - p.2.start_sec)) with hl | hr
      · left; simpa [popLoop, hc] using hl
      · right; simp [popLoop, hc, hr]

/-- C4: the two-phase pruning contract holds for every over-budget pool. -/
theorem montage_two_phase (clips : List Clip) (hints : List ℕ)
    (h : MAX_DURATION_SEC < sumDur clips) : TwoPhaseSpec clips hints := by
  refine ⟨pruneAI_removed_sublist hints _ _, pruneAI_removed_over hints _ _ h, ?_, ?_, ?_⟩
  · by_cases h2 : (phaseAOut clips hints).dur ≤ MAX_DURATION_SEC
    · unfold selectMontage
      rw [selectMontageWith_mid _ _ _ h h2]
    · unfold selectMontage
      rw [selectMontageWith_deep _ _ _ h (not_le.mp h2)]
  · intro h2
    unfold selectMontage
    rw [selectMontageWith_mid _ _ _ h h2]
  · intro h2
    refine ⟨sortDescBy_reverse_pairwise _ _, ?_, popLoop_removed_take _ _ _,
      fun j hj => popLoop_removed_over _ _ _ j hj, popLoop_end _ _ _⟩
    unfold selectMontage
    rw [selectMontageWith_deep _ _ _ h h2]
    rfl

/-- Witness for `montage_two_phase`: the spec's end-to-end pool of durations
`[40, 30, 10, 25, 15]` (total 120s) with an empty hint list. -/
theorem c4_witness :
    MAX_DURATION_SEC < sumDur poolC4 ∧ TwoPhaseSpec poolC4 [] := by
  have hp : MAX_DURATION_SEC < sumDur poolC4 := by
    norm_num [sumDur, poolC4, MAX_DURATION_SEC]
  exact ⟨hp, montage_two_phase poolC4 [] hp⟩

/-- C5: an under-budget pool is returned whole — the result is exactly the
chronologically sorted pool with the full total duration and empty removal
traces for both phases — and every selection emits its clips sorted by
`clip_date`. -/
theorem selection_no_pruning (clips : List Clip) (hints : List ℕ)
    (h : sumDur clips ≤ MAX_DURATION_SEC) :
    selectMontage clips hints = ⟨chronSort clips, sumDur clips, [], []⟩
    ∧ List.Perm (chronSort clips) clips
    ∧ List.Sorted chronLE (chronSort clips)
    ∧ (∀ (cs : List Clip) (hs : List ℕ),
        List.Sorted chronLE (selectMontage cs hs).selected) :=
  ⟨selectMontageWith_le _ clips hints h, chronSort_perm clips, chronSort_sorted clips,
    fun cs hs => selectMontageWith_selected_sorted _ cs hs⟩

/-- Witness for `selection_no_pruning` at the 50-second five-clip pool. -/
theorem c5_witness :
    sumDur poolC2 ≤ MAX_DURATION_SEC
    ∧ selectMontage poolC2 [] = ⟨chronSort poolC2, sumDur poolC2, [], []⟩ := by
  have hp : sumDur poolC2 ≤ MAX_DURATION_SEC := by
    norm_num [sumDur, poolC2, MAX_DURATION_SEC]
  exact ⟨hp, (selection_no_pruning poolC2 [] hp).1⟩

theorem pruneAI_single (c : Clip) :
    ∀ (hints : List ℕ) (cur : ℚ), cur - (c.end_sec - c.start_sec) ≤ MAX_DURATION_SEC →
      (pruneAI hints [(0, c)] cur).kept = []
      ∨ pruneAI hints [(0, c)] cur = ⟨[(0, c)], cur, []⟩ := by
  intro hints
  induction hints with
  | nil => intro cur hc; right; rfl
  | cons h rest ih =>
    intro cur hc
    by_cases h0 : h = 0
    · subst h0
      have hf : List.find? (fun p => p.1 == 0) [(0, c)] = some (0, c) := rfl
      simp only [pruneAI, hf,
        if_pos (show cur - ((0, c).2.end_sec - (0, c).2.start_sec) ≤ MAX_DURATION_SEC from hc)]
      left
      rfl
    · have hf : List.find? (fun p => p.1 == h) [(0, c)] = none := by
        simp [List.find?_eq_none]
        exact fun heq => h0 heq.symm
      simp only [pruneAI, hf]
      exact ih cur hc

/-- C1 (amended): a pool consisting of a single clip longer than
`MAX_DURATION_SEC` is emptied by pruning — Phase B pops the last remaining
clip (and Phase A may already have removed it if hinted) — so the selection
contains no clip at all. -/
theorem single_long_clip_emptied (c : Clip) (hints : List ℕ)
    (h : MAX_DURATION_SEC < c.end_sec - c.start_sec) :
    (selectMontage [c] hints).selected = [] := by
  have hsum : sumDur [c] = c.end_sec - c.start_sec := by simp [sumDur]
  have hover : MAX_DURATION_SEC < sumDur [c] := by rw [hsum]; exact h
  have hW : withIdx 0 [c] = [(0, c)] := rfl
  have hc : sumDur [c] - (c.end_sec - c.start_sec) ≤ MAX_DURATION_SEC := by
    rw [hsum]
    norm_num [MAX_DURATION_SEC]
  have hA : phaseAOut [c] hints = pruneAI hints [(0, c)] (sumDur [c]) := by
    rw [phaseAOut, hW]
  rcases pruneAI_single c hints (sumDur [c]) hc with hk | he
  · by_cases hd : (phaseAOut [c] hints).dur ≤ MAX_DURATION_SEC
    · unfold selectMontage
      rw [selectMontageWith_mid _ _ _ hover hd]
      show chronSort ((phaseAOut [c] hints).kept.map Prod.snd) = []
      rw [hA, hk]
      rfl
    · unfold selectMontage
      rw [selectMontageWith_deep _ _ _ hover (not_le.mp hd)]
      show chronSort ((popLoop ((sortDescBy (fun x => x.score) (phaseAOut [c] hints).kept).reverse)
          (phaseAOut [c] hints).kept (phaseAOut [c] hints).dur).kept.map Prod.snd) = []
      rw [hA, hk]
      rfl
  · have hd : ¬ (phaseAOut [c] hints).dur ≤ MAX_DURATION_SEC := by
      rw [hA, he]
      exact not_le.mpr hover
    unfold selectMontage
    rw [selectMontageWith_deep _ _ _ hover (not_le.mp hd)]
    show chronSort ((popLoop ((sortDescBy (fun x => x.score) (phaseAOut [c] hints).kept).reverse)
        (phaseAOut [c] hints).kept (phaseAOut [c] hints).dur).kept.map Prod.snd) = []
    rw [hA, he]
    have hpop : popLoop [(0, c)] [(0, c)] (sumDur [c]) =
        ⟨[], sumDur [c] - (c.end_sec - c.start_sec), [(0, c)]⟩ := by
      simp only [popLoop, if_neg (not_le.mpr hover)]
      simp [deleteById]
    have hasc : (sortDescBy (fun x : Clip => x.score) [(0, c)]).reverse = [(0, c)] := rfl
    simp only []
    rw [hasc, hpop]
    rfl

/-- C1 counterexample: the single 100-second clip pool with `MAX_DURATION_SEC = 90`
is over budget, and the selection is empty — not a one-clip Selection. -/
theorem c1_counterexample :
    MAX_DURATION_SEC < sumDur [bigClip]
    ∧ (selectMontage [bigClip] []).selected = [] := by
  constructor
  · norm_num [sumDur, bigClip, MAX_DURATION_SEC]
  · norm_num [selectMontage, selectMontageWith, sumDur, bigClip, MAX_DURATION_SEC,
      withIdx, pruneAI, popLoop, deleteById, sortDescBy, chronSort, scoreGE, chronLE]

/-- Witness for `single_long_clip_emptied` at the 100-second clip, with the
clip itself hinted as redundant. -/
theorem c1_witness :
    MAX_DURATION_SEC < bigClip.end_sec - bigClip.start_sec
    ∧ (selectMontage [bigClip] [0]).selected = [] := by
  have hp : MAX_DURATION_SEC < bigClip.end_sec - bigClip.start_sec := by
    norm_num [bigClip, MAX_DURATION_SEC]
  exact ⟨hp, single_long_clip_emptied bigClip [0] hp⟩

theorem lastStatus_append_fail (xs : List Event) (s : Status) (d : Option String) :
    lastStatus ((xs ++ [Event.setStatus s d]) ++ [Event.cleanup]) = some (s, d) := by
  unfold lastStatus
  rw [List.foldl_append, List.foldl_append]
  rfl

theorem isEmpty_false_of_ne_nil {l : List Clip} (h : l ≠ []) : l.isEmpty = false := by
  rcases hl : l with _ | ⟨a, t⟩
  · exact absurd hl h
  · rfl

theorem normLoop_all_ok (t : ℕ → Bool) (ht : ∀ j, t j = true) :
    ∀ (l : List Clip) (i : ℕ), (normLoop t l i).2 = Except.ok (resolvableIdx l i) := by
  intro l
  induction l with
  | nil => intro i; rfl
  | cons c rest ih =>
    intro i
    by_cases hk : c.hasKey = true
    · simp only [normLoop, resolvableIdx, hk, ht i, if_true]
      rw [ih (i + 1)]
      rfl
    · simp only [normLoop, resolvableIdx, if_neg hk]
      exact ih (i + 1)

theorem bodyCore_normErr (env : Env) (hints : List ℕ) (e : String)
    (h1 : env.mkdirOk = true) (h2 : env.initOk = true) (h3 : env.fetchOk = true)
    (h4 : env.clips ≠ [])
    (he : (normLoop env.trimOk (selectMontage env.clips hints).selected 0).2
      = Except.error e) :
    (bodyCore env hints).outcome = Except.error e
    ∧ (bodyCore env hints).jobCreated = true := by
  simp [bodyCore, h1, h2, h3, isEmpty_false_of_ne_nil h4, he]

theorem bodyCore_emptyFormatted (env : Env) (hints : List ℕ)
    (h1 : env.mkdirOk = true) (h2 : env.initOk = true) (h3 : env.fetchOk = true)
    (h4 : env.clips ≠ [])
    (hok : (normLoop env.trimOk (selectMontage env.clips hints).selected 0).2
      = Except.ok []) :
    (bodyCore env hints).outcome
      = Except.error "No clips could be processed for the final montage."
    ∧ (bodyCore env hints).jobCreated = true := by
  simp [bodyCore, h1, h2, h3, isEmpty_false_of_ne_nil h4, hok]

theorem run_failed_of_bodyErr (env : Env) (scorer : ScorerOutcome) (e : String)
    (he : (bodyCore env (getPruningSuggestions scorer (clipDescs env.clips))).outcome
      = Except.error e)
    (hj : (bodyCore env (getPruningSuggestions scorer (clipDescs env.clips))).jobCreated
      = true) :
    lastStatus (processMontageCreation env scorer) = some (Status.failed, none) := by
  unfold processMontageCreation
  simp only [he, hj, if_true]
  exact lastStatus_append_fail _ _ _

/-- C2 (amended): per-clip normalization skips exactly the clips whose media
reference cannot be resolved (non-fatally), but a Transcoder trim failure on
any clip is fatal — the run ends with status `failed` — and when every trim
succeeds the run still fails if no clip had a resolvable reference. -/
theorem normalize_failure_fatal (env : Env) (scorer : ScorerOutcome)
    (h1 : env.mkdirOk = true) (h2 : env.initOk = true) (h3 : env.fetchOk = true)
    (h4 : env.clips ≠ []) :
    (∀ e, (normLoop env.trimOk (selectMontage env.clips
          (getPruningSuggestions scorer (clipDescs env.clips))).selected 0).2
        = Except.error e →
      lastStatus (processMontageCreation env scorer) = some (Status.failed, none))
    ∧ ((∀ i, env.trimOk i = true) →
      (normLoop env.trimOk (selectMontage env.clips
          (getPruningSuggestions scorer (clipDescs env.clips))).selected 0).2
        = Except.ok (resolvableIdx (selectMontage env.clips
            (getPruningSuggestions scorer (clipDescs env.clips))).selected 0)
      ∧ (resolvableIdx (selectMontage env.clips
            (getPruningSuggestions scorer (clipDescs env.clips))).selected 0 = [] →
        lastStatus (processMontageCreation env scorer) = some (Status.failed, none))) := by
  constructor
  · intro e he
    obtain ⟨ho, hj⟩ := bodyCore_normErr env _ e h1 h2 h3 h4 he
    exact run_failed_of_bodyErr env scorer e ho hj
  · intro ht
    have hok := normLoop_all_ok env.trimOk ht
      (selectMontage env.clips (getPruningSuggestions scorer (clipDescs env.clips))).selected 0
    refine ⟨hok, ?_⟩
    intro hempty
    rw [hempty] at hok
    obtain ⟨ho, hj⟩ := bodyCore_emptyFormatted env _ h1 h2 h3 h4 hok
    exact run_failed_of_bodyErr env scorer _ ho hj

/-- C2 counterexample: five resolvable 10-second clips with the Transcoder
failing on clip 3 (loop index 2).  The run stops at that clip — clips 4 and 5
are never processed, nothing is concatenated — and the job ends `failed`,
not `complete` with the remaining four clips. -/
theorem c2_counterexample :
    processMontageCreation envC2 (ScorerOutcome.response (some [])) =
      [Event.insertJob, Event.fetchClips, Event.scorerCall,
        Event.download 0, Event.trim 0, Event.download 1, Event.trim 1,
        Event.download 2, Event.trim 2,
        Event.setStatus Status.failed none, Event.cleanup]
    ∧ lastStatus (processMontageCreation envC2 (ScorerOutcome.response (some []))) =
        some (Status.failed, none)
    ∧ Event.concatCall ∉ processMontageCreation envC2 (ScorerOutcome.response (some [])) := by
  have ht : processMontageCreation envC2 (ScorerOutcome.response (some [])) =
      [Event.insertJob, Event.fetchClips, Event.scorerCall,
        Event.download 0, Event.trim 0, Event.download 1, Event.trim 1,
        Event.download 2, Event.trim 2,
        Event.setStatus Status.failed none, Event.cleanup] := by
    norm_num [processMontageCreation, bodyCore, getPruningSuggestions, clipDescs, withIdx,
      selectMontage, selectMontageWith, sumDur, chronSort, chronLE, normLoop, envC2, poolC2,
      MAX_DURATION_SEC, Except.map]
  refine ⟨ht, ?_, ?_⟩
  · rw [ht]; rfl
  · rw [ht]; simp

/-- Witness for `normalize_failure_fatal` at the concrete environment whose
trim of loop index 2 fails. -/
theorem c2_witness :
    envC2.mkdirOk = true ∧ envC2.initOk = true ∧ envC2.fetchOk = true
    ∧ envC2.clips ≠ []
    ∧ (∀ e, (normLoop envC2.trimOk (selectMontage envC2.clips
          (getPruningSuggestions (ScorerOutcome.response (some []))
            (clipDescs envC2.clips))).selected 0).2
        = Except.error e →
      lastStatus (processMontageCreation envC2 (ScorerOutcome.response (some [])))
        = some (Status.failed, none)) := by
  refine ⟨rfl, rfl, rfl, by simp [envC2, poolC2], ?_⟩
  exact (normalize_failure_fatal envC2 (ScorerOutcome.response (some []))
    rfl rfl rfl (by simp [envC2, poolC2])).1

theorem orderedInsert_congr {α : Type} (r s : α → α → Prop)
    [DecidableRel r] [DecidableRel s] (a : α) :
    ∀ (l : List α), (∀ x ∈ a :: l, ∀ y ∈ a :: l, (r x y ↔ s x y)) →
      List.orderedInsert r a l = List.orderedInsert s a l := by
  intro l
  induction l with
  | nil => intro _; rfl
  | cons b t ih =>
    intro hag
    simp only [List.orderedInsert]
    by_cases hr : r a b
    · rw [if_pos hr, if_pos ((hag a (by simp) b (by simp)).mp hr)]
    · have hsub : ∀ x, x ∈ a :: t → x ∈ a :: b :: t := by
        intro x hx
        rcases List.mem_cons.mp hx with h | h
        · exact h ▸ List.mem_cons_self _ _
        · exact List.mem_cons_of_mem _ (List.mem_cons_of_mem _ h)
      rw [if_neg hr, if_neg (fun hsab => hr ((hag a (by simp) b (by simp)).mpr hsab))]
      rw [ih (fun x hx y hy => hag x (hsub x hx) y (hsub y hy))]

theorem insertionSort_congr {α : Type} (r s : α → α → Prop)
    [DecidableRel r] [DecidableRel s] :
    ∀ (l : List α), (∀ x ∈ l, ∀ y ∈ l, (r x y ↔ s x y)) →
      List.insertionSort r l = List.insertionSort s l := by
  intro l
  induction l with
  | nil => intro _; rfl
  | cons a t ih =>
    intro hag
    simp only [List.insertionSort]
    have ht : List.insertionSort s t = List.insertionSort r t :=
      (ih (fun x hx y hy =>
        hag x (List.mem_cons_of_mem _ hx) y (List.mem_cons_of_mem _ hy))).symm
    rw [ht]
    apply orderedInsert_congr
    intro x hx y hy
    have hmem : ∀ z, z ∈ a :: List.insertionSort r t → z ∈ a :: t := by
      intro z hz
      rcases List.mem_cons.mp hz with h | h
      · exact h ▸ List.mem_cons_self _ _
      · exact List.mem_cons_of_mem _ ((List.mem_insertionSort r).mp h)
    exact hag x (hmem x hx) y (hmem y hy)

theorem withIdx_snd_mem : ∀ (l : List Clip) (i : ℕ) (p : ℕ × Clip),
    p ∈ withIdx i l → p.2 ∈ l := by
  intro l
  induction l with
  | nil => intro i p hp; simp [withIdx] at hp
  | cons c rest ih =>
    intro i p hp
    simp only [withIdx, List.mem_cons] at hp
    rcases hp with h | h
    · rw [h]; exact List.mem_cons_self _ _
    · exact List.mem_cons_of_mem _ (ih (i + 1) p h)

theorem pruneAI_kept_mem (hints : List ℕ) :
    ∀ (kept : List (ℕ × Clip)) (cur : ℚ) (p : ℕ × Clip),
      p ∈ (pruneAI hints kept cur).kept → p ∈ kept := by
  induction hints with
  | nil => intro kept cur p hp; simpa [pruneAI] using hp
  | cons h rest ih =>
    intro kept cur p hp
    rcases hf : kept.find? (fun q => q.1 == h) with _ | q
    · simp only [pruneAI, hf] at hp
      exact ih kept cur p hp
    · by_cases hcond : cur - (q.2.end_sec - q.2.start_sec) ≤ MAX_DURATION_SEC
      · simp only [pruneAI, hf, if_pos hcond] at hp
        exact List.mem_of_mem_filter hp
      · simp only [pruneAI, hf, if_neg hcond] at hp
        exact List.mem_of_mem_filter (ih _ _ p hp)

theorem selectMontageWith_congr (f g : Clip → ℚ) (clips : List Clip) (hints : List ℕ)
    (hfg : ∀ c ∈ clips, f c = g c) :
    selectMontageWith f clips hints = selectMontageWith g clips hints := by
  by_cases h : sumDur clips ≤ MAX_DURATION_SEC
  · rw [selectMontageWith_le f clips hints h, selectMontageWith_le g clips hints h]
  · by_cases h2 : (phaseAOut clips hints).dur ≤ MAX_DURATION_SEC
    · rw [selectMontageWith_mid f clips hints (not_le.mp h) h2,
        selectMontageWith_mid g clips hints (not_le.mp h) h2]
    · rw [selectMontageWith_deep f clips hints (not_le.mp h) (not_le.mp h2),
        selectMontageWith_deep g clips hints (not_le.mp h) (not_le.mp h2)]
      have hsort : sortDescBy f (phaseAOut clips hints).kept
          = sortDescBy g (phaseAOut clips hints).kept := by
        apply insertionSort_congr
        intro x hx y hy
        have hx2 : f x.2 = g x.2 :=
          hfg x.2 (withIdx_snd_mem clips 0 x (pruneAI_kept_mem hints _ _ x hx))
        have hy2 : f y.2 = g y.2 :=
          hfg y.2 (withIdx_snd_mem clips 0 y (pruneAI_kept_mem hints _ _ y hy))
        simp [scoreGE, hx2, hy2]
      rw [hsort]

/-- C3 counterexample: with three clips whose stored scores match the
composite formula — a 50s clip of composite 1, a 10s clip of composite 0.94,
a 45s clip of composite 1 (total 105s > 90s) — the code's Phase B (ranking by
the stored, unpenalized `score`) keeps only the 50s clip, while ranking by
the spec's duration-penalized formula would keep the 50s and 10s clips; and
the stored score of the long clip differs from the penalized formula. -/
theorem c3_counterexample :
    (selectMontage [clipA, clipB, clipC] []).selected = [clipA]
    ∧ (selectMontageWith specPruningScore [clipA, clipB, clipC] []).selected = [clipA, clipB]
    ∧ clipA.score = clipRowScore clipA.relevance clipA.quality clipA.confidence
    ∧ 12 < clipA.end_sec - clipA.start_sec
    ∧ specPruningScore clipA ≠ clipA.score := by
  refine ⟨?_, ?_, ?_, ?_, ?_⟩
  · norm_num [selectMontage, selectMontageWith, clipA, clipB, clipC, sumDur, MAX_DURATION_SEC,
      withIdx, pruneAI, popLoop, deleteById, sortDescBy, chronSort, scoreGE, chronLE]
  · norm_num [selectMontageWith, specPruningScore, clipA, clipB, clipC, sumDur,
      MAX_DURATION_SEC, withIdx, pruneAI, popLoop, deleteById, sortDescBy, chronSort,
      scoreGE, chronLE]
  · norm_num [clipA, clipRowScore]
  · norm_num [clipA]
  · norm_num [specPruningScore, clipA]

/-- C3 (amended): the ranking score used by montage pruning is the stored
`score` column — the plain composite `0.7*relevance + 0.2*quality +
0.1*confidence` written at insert time, with no duration penalty — so the
spec's penalized formula coincides with the code's ranking exactly when no
clip in the pool exceeds the 12-second threshold; the `0.9` penalty exists
only in the alternate per-source selector (`selectBestSegments`). -/
theorem pruning_score_unpenalized (clips : List Clip) (hints : List ℕ)
    (hs : ∀ c ∈ clips, c.score = clipRowScore c.relevance c.quality c.confidence)
    (hd : ∀ c ∈ clips, c.end_sec - c.start_sec ≤ 12) :
    selectMontage clips hints = selectMontageWith specPruningScore clips hints
    ∧ (∀ (s e rel qual conf : ℚ) (cid : ℕ) (date : ℤ) (desc : String) (k : Bool),
        (insertedClip s e rel qual conf cid date desc k).score = clipRowScore rel qual conf)
    ∧ (∀ c : Clip, 12 < c.end_sec - c.start_sec →
        specPruningScore c = clipRowScore c.relevance c.quality c.confidence * (9/10))
    ∧ (∀ sg : Seg9, sg.durationSec ≤ 12 →
        seg9Score sg = clipRowScore (sg.relevance.getD 0) (sg.quality.getD (1/2))
          (sg.confidence.getD (1/2)))
    ∧ (∀ sg : Seg9, 12 < sg.durationSec →
        seg9Score sg = clipRowScore (sg.relevance.getD 0) (sg.quality.getD (1/2))
          (sg.confidence.getD (1/2)) * (9/10)) := by
  refine ⟨?_, fun _ _ _ _ _ _ _ _ _ => rfl, ?_, ?_, ?_⟩
  · apply selectMontageWith_congr
    intro c hc
    have hnd : ¬ (12 : ℚ) < c.end_sec - c.start_sec := not_lt.mpr (hd c hc)
    simp [specPruningScore, clipRowScore, hnd, hs c hc]
  · intro c hcd
    simp [specPruningScore, clipRowScore, hcd]
  · intro sg hsg
    simp [seg9Score, clipRowScore, not_lt.mpr hsg]
  · intro sg hsg
    simp [seg9Score, clipRowScore, hsg]

/-- Witness for `pruning_score_unpenalized` at a one-clip pool whose stored
score matches the composite formula and whose duration is under 12s. -/
theorem c3_witness :
    (∀ c ∈ [clipD], c.score = clipRowScore c.relevance c.quality c.confidence)
    ∧ (∀ c ∈ [clipD], c.end_sec - c.start_sec ≤ 12)
    ∧ selectMontage [clipD] [] = selectMontageWith specPruningScore [clipD] [] := by
  have hsC : ∀ c ∈ [clipD], c.score = clipRowScore c.relevance c.quality c.confidence := by
    intro c hc
    simp only [List.mem_singleton] at hc
    subst hc
    norm_num [clipD, clipRowScore]
  have hdC : ∀ c ∈ [clipD], c.end_sec - c.start_sec ≤ 12 := by
    intro c hc
    simp only [List.mem_singleton] at hc
    subst hc
    norm_num [clipD]
  exact ⟨hsC, hdC, (pruning_score_unpenalized [clipD] [] hsC hdC).1⟩
